import Mathlib

/-!
Shallow embedding of the distributed-classification-system repository
(`src/ml-service`): the data model (`schemas/requests.py`), the batch
classification engine (`controllers/classification_controller.py`), the
open-vocabulary CLIP ranking (`models/clip_model.py`) and the SQS queue
worker (`sqs_worker.py`), together with theorems settling the spec claims.

Numeric scores are embedded as rationals (`ℚ`); collaborator calls
(S3 image download and model inference) are embedded as explicit oracle
functions `String → Except String (List Prediction)` giving, per S3 key,
either the composed download-and-predict output or the raised error.
Wall-clock latency fields (`processing_time_ms`) are omitted: no claim
mentions them.
-/

namespace DCS

/-- `schemas/requests.py` `Prediction`: a single (label, score) pair. -/
structure Prediction where
  label : String
  score : ℚ
deriving DecidableEq, Repr

/-- `schemas/requests.py` `JobType` enum. -/
inductive JobType where
  | image_classification
  | custom_classification
deriving DecidableEq, Repr

/-- `JobType.value`: the string value of the enum member. -/
def JobType.value : JobType → String
  | .image_classification => "image_classification"
  | .custom_classification => "custom_classification"

/-- `schemas/requests.py` `ClassificationRequest` (the Job). Pydantic field
validation (`top_k` in 1..10, `confidence_threshold` in 0..1) is enforced at
construction time; see `buildRequest` below for the queue-worker path. -/
structure ClassificationRequest where
  job_id : String
  job_type : JobType
  s3_bucket : String
  s3_keys : List String
  custom_labels : Option (List String)
  top_k : Nat
  confidence_threshold : ℚ
deriving DecidableEq, Repr

/-- `schemas/requests.py` `ImageResult` (without the wall-clock
`processing_time_ms` field, which no claim concerns). -/
structure ImageResult where
  filename : String
  s3_key : String
  top_prediction : String
  top_confidence : ℚ
  all_predictions : List Prediction
  reason : Option String
deriving DecidableEq, Repr

/-- `schemas/requests.py` `ClassificationSummary`. -/
structure ClassificationSummary where
  total : Nat
  classified : Nat
  unknown : Nat
deriving DecidableEq, Repr

/-- `schemas/requests.py` `ClassificationResponse` (the BatchResult).
`grouped_by_label` embeds the Python dict as an insertion-ordered
association list, matching dict iteration order. -/
structure ClassificationResponse where
  success : Bool
  job_id : String
  job_type : String
  model_used : String
  total_images : Nat
  grouped_by_label : List (String × List String)
  detailed_results : List ImageResult
  summary : ClassificationSummary
deriving DecidableEq, Repr

/-- Split a character list at every occurrence of `sep`, keeping empty
pieces, as Python `str.split(sep)` does for a one-character separator.
Always returns a non-empty list. -/
def splitOnChar (sep : Char) : List Char → List (List Char)
  | [] => [[]]
  | c :: cs =>
    match splitOnChar sep cs with
    | [] => [[c]]
    | p :: ps => if c = sep then [] :: p :: ps else (c :: p) :: ps

instance {ε α : Type} [DecidableEq ε] [DecidableEq α] : DecidableEq (Except ε α) := fun a b =>
  match a, b with
  | .error e, .error f =>
    if h : e = f then isTrue (congrArg Except.error h)
    else isFalse (fun c => h (by injection c))
  | .error _, .ok _ => isFalse (fun c => Except.noConfusion c)
  | .ok _, .error _ => isFalse (fun c => Except.noConfusion c)
  | .ok a, .ok b =>
    if h : a = b then isTrue (congrArg Except.ok h)
    else isFalse (fun c => h (by injection c))

/-- Python `s3_key.split('/')[-1]` (classification_controller.py line 85):
the substring after the last `/`. `splitOnChar` never returns `[]`, so the
default of `getLastD` is never used. -/
def pyLastSegment (s3_key : String) : String :=
  String.mk ((splitOnChar '/' s3_key.data).getLastD [])

/-- Decimal digits of the fractional part `n/d` by long division
(`fuel` bounds the expansion; terminates early on exact division). -/
def fracDigits : Nat → Nat → Nat → List Nat
  | _, _, 0 => []
  | n, d, fuel + 1 =>
    if n = 0 then []
    else (n * 10 / d) :: fracDigits (n * 10 % d) d fuel

/-- Decimal rendering of a rational, modelling Python `str(float)` for the
terminating-decimal values in scope (e.g. `str(0.5) = "0.5"`). Used for the
f-string interpolation of the raw `confidence_threshold`. -/
def pyFloatStr (q : ℚ) : String :=
  let sgn := if q < 0 then "-" else ""
  let a := q.num.natAbs
  let d := q.den
  let fr := fracDigits (a % d) d 17
  let frs := if fr = [] then "0" else String.join (fr.map (fun n => toString n))
  sgn ++ toString (a / d) ++ "." ++ frs

/-- Python f-string `{x:.2f}`: fixed two-decimal rendering (rounded to the
nearest hundredth, halves up). For `q` with numerator `n` and denominator
`d`, the rounded value of `100 q` is `⌊(200 n + d) / (2 d)⌋`. -/
def fmt2 (q : ℚ) : String :=
  let r : ℤ := Int.fdiv (200 * q.num + (q.den : ℤ)) (2 * (q.den : ℤ))
  let sgn := if r < 0 then "-" else ""
  let a := r.natAbs
  sgn ++ toString (a / 100) ++ "." ++ (if a % 100 < 10 then "0" else "") ++ toString (a % 100)

/-- The audit string built at classification_controller.py line 95 when the
top prediction falls below the confidence threshold. -/
def reasonString (original_prediction : String) (top_confidence confidence_threshold : ℚ) : String :=
  "confidence below threshold (" ++ fmt2 top_confidence ++ " < " ++
    pyFloatStr confidence_threshold ++ "). Original prediction: " ++ original_prediction

/-- `ClassificationController._classify_single_image` (lines 60-110),
with the composed download-and-predict collaborator call embedded as the
oracle `env` (one call per `s3_key`; `.error` is a raised exception, which
the source re-raises). An empty prediction list makes `predictions[0]`
raise an IndexError, also embedded as `.error`. -/
def classifySingleImage (env : String → Except String (List Prediction))
    (s3_key : String) (confidence_threshold : ℚ) : Except String ImageResult :=
  match env s3_key with
  | .error e => .error e
  | .ok predictions =>
    match predictions with
    | [] => .error ("Failed to classify " ++ s3_key ++ ": list index out of range")
    | p0 :: rest =>
      let filename := pyLastSegment s3_key
      if p0.score < confidence_threshold then
        .ok { filename := filename
              s3_key := s3_key
              top_prediction := "unknown"
              top_confidence := p0.score
              all_predictions := p0 :: rest
              reason := some (reasonString p0.label p0.score confidence_threshold) }
      else
        .ok { filename := filename
              s3_key := s3_key
              top_prediction := p0.label
              top_confidence := p0.score
              all_predictions := p0 :: rest
              reason := none }

/-- The per-image loop of `ClassificationController.classify_batch`
(lines 137-153), instrumented with a trace: `(trace, outcome)` where
`trace` lists the s3 keys for which the per-image step (image download and
classifier call) was reached, in order. The first raised exception aborts
the loop and propagates. -/
def processKeys (env : String → Except String (List Prediction))
    (confidence_threshold : ℚ) : List String → List String × Except String (List ImageResult)
  | [] => ([], .ok [])
  | k :: ks =>
    match classifySingleImage env k confidence_threshold with
    | .error e => ([k], .error e)
    | .ok r =>
      let rest := processKeys env confidence_threshold ks
      (k :: rest.1, rest.2.map (fun rs => r :: rs))

/-- The grouping step in the loop body (classification_controller.py
lines 149-153): append `filename` to the dict entry of `label`, creating
the entry at the end on first sight (Python dict insertion order). -/
def addToGroup (g : List (String × List String)) (label filename : String) :
    List (String × List String) :=
  if g.any (fun p => p.1 = label) then
    g.map (fun p => if p.1 = label then (p.1, p.2 ++ [filename]) else p)
  else
    g ++ [(label, [filename])]

/-- The `grouped_by_label` dict after the whole loop. -/
def buildGroups (results : List ImageResult) : List (String × List String) :=
  results.foldl (fun g r => addToGroup g r.top_prediction r.filename) []

/-- Python `dict.get(key, default)` on the association-list embedding. -/
def pyDictGet (g : List (String × List String)) (key : String)
    (dflt : List String) : List String :=
  match g.find? (fun p => p.1 = key) with
  | some p => p.2
  | none => dflt

/-- `ClassificationController.classify_batch` (lines 112-191): custom-label
validation, the per-image loop with grouping, then summary and response
assembly. Returns the instrumented call trace together with either the
response or the propagated exception. The Python truthiness test
`not request.custom_labels` holds for both `None` and `[]`, embedded as
`custom_labels.getD [] = []`. -/
def classify_batch (env : String → Except String (List Prediction))
    (request : ClassificationRequest) :
    List String × Except String ClassificationResponse :=
  if request.job_type = JobType.custom_classification ∧ request.custom_labels.getD [] = [] then
    ([], .error "custom_labels is required for custom_classification")
  else
    match processKeys env request.confidence_threshold request.s3_keys with
    | (tr, .error e) => (tr, .error e)
    | (tr, .ok detailed_results) =>
      let grouped_by_label := buildGroups detailed_results
      let model_used :=
        if request.job_type = JobType.image_classification then "MobileNetV2" else "CLIP"
      let unknown_count := (pyDictGet grouped_by_label "unknown" []).length
      let classified_count := detailed_results.length - unknown_count
      (tr, .ok
        { success := true
          job_id := request.job_id
          job_type := request.job_type.value
          model_used := model_used
          total_images := detailed_results.length
          grouped_by_label := grouped_by_label
          detailed_results := detailed_results
          summary :=
            { total := detailed_results.length
              classified := classified_count
              unknown := unknown_count } })

/-- Order-preserving first-occurrence deduplication; used to characterise
the key order of the insertion-ordered `grouped_by_label` dict. -/
def firstSeen {α : Type} [DecidableEq α] : List α → List α
  | [] => []
  | x :: xs => x :: (firstSeen xs).filter (fun y => y ≠ x)

/-- Analysis-side characterisation of `buildGroups`: keys in first-seen
order, each carrying the filenames of exactly the results resolved to that
label, in processing order. -/
def groupsOf (results : List ImageResult) : List (String × List String) :=
  (firstSeen (results.map (fun r => r.top_prediction))).map
    (fun l => (l, (results.filter (fun r => r.top_prediction = l)).map (fun r => r.filename)))

/-- The comparison underlying `sorted(results, key=lambda x: x["score"],
reverse=True)` in `ClipModel.predict`: `a` may precede `b` iff
`b.score ≤ a.score` (descending). -/
def scoreDescRel (a b : Prediction) : Prop := b.score ≤ a.score

instance : DecidableRel scoreDescRel := fun a b =>
  inferInstanceAs (Decidable (b.score ≤ a.score))

instance : IsTotal Prediction scoreDescRel :=
  ⟨fun a b => (le_total b.score a.score).elim Or.inl Or.inr⟩

instance : IsTrans Prediction scoreDescRel :=
  ⟨fun _ _ _ h1 h2 => le_trans h2 h1⟩

/-- Python `sorted(results, key=lambda x: x["score"], reverse=True)`
(clip_model.py line 75): a stable descending sort by score, embedded as
insertion sort with the total preorder `scoreDescRel` (insertion sort with
a non-strict comparison keeps equal-score elements in input order, as
Python's stable sort does). -/
def pySortedByScoreDesc (results : List Prediction) : List Prediction :=
  results.insertionSort scoreDescRel

/-- `ClipModel.predict` (clip_model.py lines 30-76). The softmax
probability `probs[0][i]` of label `i`'s prompt is embedded as the oracle
`scores` applied to the label (identical labels yield identical prompts,
hence identical scores; the model is assumed loaded, as the controller
loads both models at startup). Python truthiness `not custom_labels` is
the empty-list test here (the `None` case reaches this code only as the
batch-level validation error, see `classify_batch`). -/
def clipPredict (scores : String → ℚ) (custom_labels : List String) (top_k : Nat) :
    Except String (List Prediction) :=
  if custom_labels = [] then
    .error "custom_labels must be provided for CLIP classification"
  else
    let results := custom_labels.map (fun label => { label := label, score := scores label })
    .ok ((pySortedByScoreDesc results).take top_k)

/-- A successfully json-decoded JSON object body, with the fields
`process_message` reads (absent key = `none`; `custom_labels` being absent
or JSON `null` both read back as `None` via `body.get`, merged here). -/
structure JsonDict where
  job_id : Option String
  job_type : Option String
  s3_bucket : Option String
  s3_keys : Option (List String)
  custom_labels : Option (List String)
  top_k : Option Nat
  confidence_threshold : Option ℚ
  retry_count : Option Nat
deriving DecidableEq, Repr

/-- Outcome of `json.loads` on a raw message body: decoding fails, decodes
to a non-object value (no `.get`/`[...]` string access), or decodes to an
object. -/
inductive ParsedBody where
  | notJson
  | nonDict
  | dict (d : JsonDict)
deriving DecidableEq, Repr

/-- An SQS message as `process_message` receives it: `ReceiptHandle` plus
the (abstractly pre-parsed) `Body`. -/
structure RawMessage where
  receiptHandle : String
  body : ParsedBody
deriving DecidableEq, Repr

/-- `JobType(body['job_type'])`: enum lookup by value, ValueError = `none`. -/
def parseJobType : String → Option JobType
  | "image_classification" => some .image_classification
  | "custom_classification" => some .custom_classification
  | _ => none

/-- The `ClassificationRequest(...)` construction in `process_message`
(sqs_worker.py lines 62-70): KeyError on a missing required key, ValueError
on a bad `job_type` value, then pydantic field validation (`top_k` in
1..10, `confidence_threshold` in 0..1) with defaults `top_k = 5`,
`confidence_threshold = 0.5`. -/
def buildRequest (d : JsonDict) : Except String ClassificationRequest :=
  match d.job_id with
  | none => .error "KeyError: job_id"
  | some job_id =>
    match d.job_type with
    | none => .error "KeyError: job_type"
    | some jt =>
      match parseJobType jt with
      | none => .error "ValueError: invalid job_type"
      | some job_type =>
        match d.s3_bucket with
        | none => .error "KeyError: s3_bucket"
        | some s3_bucket =>
          match d.s3_keys with
          | none => .error "KeyError: s3_keys"
          | some s3_keys =>
            let top_k := d.top_k.getD 5
            let confidence_threshold := d.confidence_threshold.getD (mkRat 1 2)
            if top_k < 1 ∨ 10 < top_k then
              .error "ValidationError: top_k"
            else if confidence_threshold < 0 ∨ 1 < confidence_threshold then
              .error "ValidationError: confidence_threshold"
            else
              .ok { job_id := job_id, job_type := job_type, s3_bucket := s3_bucket,
                    s3_keys := s3_keys, custom_labels := d.custom_labels,
                    top_k := top_k, confidence_threshold := confidence_threshold }

/-- Observable collaborator effects of one `process_message` run, in call
order: a per-image download-and-classify step, a `send_message` on the
status queue, a `delete_message` on the request queue. The `delivered`/`ok`
flags record the transport outcome, which both `send_status_update`
(sqs_worker.py lines 114-123) and `delete_message` (lines 125-133) catch
and log without letting it affect control flow. -/
inductive Effect where
  | classifierCall (s3_key : String)
  | statusPublish (job_id status : String) (delivered : Bool)
  | deleteMsg (receiptHandle : String) (ok : Bool)
deriving DecidableEq, Repr

/-- Recognises the acknowledgment effect. -/
def Effect.isDelete : Effect → Bool
  | .deleteMsg _ _ => true
  | _ => false

/-- Recognises a `failed` status publish. -/
def Effect.isFailedPublish : Effect → Bool
  | .statusPublish _ s _ => s = "failed"
  | _ => false

/-- Environment of one `process_message` run: the per-image
download-and-classify oracle shared with `classify_batch`, and the
transport outcomes of status sends and deletes. -/
structure WorkerEnv where
  imgEnv : String → Except String (List Prediction)
  statusSendOk : Bool
  deleteOk : Bool

/-- `SQSWorker.process_message` (sqs_worker.py lines 52-112) as its
ordered effect list. On any exception the handler at lines 89-112 re-parses
the body to build a `failed` status: for a body that is not a JSON object
(or an object without `job_id`) that re-parse/field access itself raises,
is caught at line 108, and no status is published; the message is deleted
regardless (line 112). -/
def process_message (env : WorkerEnv) (msg : RawMessage) : List Effect :=
  match msg.body with
  | .notJson => [.deleteMsg msg.receiptHandle env.deleteOk]
  | .nonDict => [.deleteMsg msg.receiptHandle env.deleteOk]
  | .dict d =>
    match buildRequest d with
    | .error _ =>
      match d.job_id with
      | none => [.deleteMsg msg.receiptHandle env.deleteOk]
      | some job_id =>
        [.statusPublish job_id "failed" env.statusSendOk,
         .deleteMsg msg.receiptHandle env.deleteOk]
    | .ok request =>
      match classify_batch env.imgEnv request with
      | (tr, .ok _) =>
        tr.map Effect.classifierCall ++
          [.statusPublish request.job_id "completed" env.statusSendOk,
           .deleteMsg msg.receiptHandle env.deleteOk]
      | (tr, .error _) =>
        tr.map Effect.classifierCall ++
          [.statusPublish request.job_id "failed" env.statusSendOk,
           .deleteMsg msg.receiptHandle env.deleteOk]

/-- `MAX_WORKERS` default (sqs_worker.py line 40). -/
def MAX_WORKERS_default : Nat := 5

/-- `BATCH_SIZE` default (sqs_worker.py line 41), the `MaxNumberOfMessages`
of each receive (line 140). -/
def BATCH_SIZE_default : Nat := 10

/-- One non-empty receive cycle of `SQSWorker.worker_loop` (sqs_worker.py
lines 154-171): `tasks = [self.process_message(msg) for msg in messages]`
creates one task per received message and `await asyncio.gather(*tasks,
return_exceptions=True)` awaits them all before the next
`receive_messages` call. No task is routed through the
`ThreadPoolExecutor(max_workers=self.max_workers)` built at line 45, and
no semaphore guards the gather: the tasks dispatched in flight in one
cycle are exactly the received messages. -/
def cycleTasks (messages : List RawMessage) : List RawMessage := messages

/-- The number of `process_message` tasks dispatched concurrently in one
cycle of `worker_loop`. -/
def cycleInFlight (messages : List RawMessage) : Nat := (cycleTasks messages).length

/-! Concrete scenario material used by witnesses and counterexamples. -/

/-- Image oracle: high-confidence cat for `a/x.jpg`, low-confidence cat
otherwise. -/
def envA : String → Except String (List Prediction) :=
  fun k => if k = "a/x.jpg" then .ok [⟨"cat", mkRat 9 10⟩] else .ok [⟨"cat", mkRat 1 10⟩]

/-- A two-image standard-classification job whose two s3 keys share the
final path segment `x.jpg`. -/
def reqA : ClassificationRequest :=
  { job_id := "j1", job_type := .image_classification, s3_bucket := "b",
    s3_keys := ["a/x.jpg", "b/x.jpg"], custom_labels := none, top_k := 5,
    confidence_threshold := mkRat 1 2 }

/-- The per-image result of `a/x.jpg` under `envA`. -/
def rA : ImageResult :=
  { filename := "x.jpg", s3_key := "a/x.jpg", top_prediction := "cat",
    top_confidence := mkRat 9 10, all_predictions := [⟨"cat", mkRat 9 10⟩], reason := none }

/-- The per-image result of `b/x.jpg` under `envA`: below threshold,
overridden to unknown. -/
def rB : ImageResult :=
  { filename := "x.jpg", s3_key := "b/x.jpg", top_prediction := "unknown",
    top_confidence := mkRat 1 10, all_predictions := [⟨"cat", mkRat 1 10⟩],
    reason := some (reasonString "cat" (mkRat 1 10) (mkRat 1 2)) }

/-- The batch response of `reqA` under `envA`. -/
def respA : ClassificationResponse :=
  { success := true, job_id := "j1", job_type := "image_classification",
    model_used := "MobileNetV2", total_images := 2,
    grouped_by_label := [("cat", ["x.jpg"]), ("unknown", ["x.jpg"])],
    detailed_results := [rA, rB],
    summary := { total := 2, classified := 1, unknown := 1 } }

/-- Image oracle that raises for every key except `ok.jpg`. -/
def envErr : String → Except String (List Prediction) :=
  fun k => if k = "ok.jpg" then .ok [⟨"cat", mkRat 9 10⟩] else .error "boom"

/-- A three-image job whose second image fails to classify under `envErr`. -/
def reqErr : ClassificationRequest :=
  { job_id := "j2", job_type := .image_classification, s3_bucket := "b",
    s3_keys := ["ok.jpg", "bad.jpg", "later.jpg"], custom_labels := none, top_k := 5,
    confidence_threshold := mkRat 1 2 }

/-- A custom-classification job with an empty custom label list. -/
def reqC7 : ClassificationRequest :=
  { job_id := "j3", job_type := .custom_classification, s3_bucket := "b",
    s3_keys := ["a.jpg", "b.jpg"], custom_labels := some [], top_k := 5,
    confidence_threshold := mkRat 1 2 }

/-- Oracle yielding two predictions, both below a `3/5` threshold. -/
def envLow : String → Except String (List Prediction) :=
  fun _ => .ok [⟨"cat", mkRat 2 5⟩, ⟨"dog", mkRat 3 10⟩]

/-- The per-image result of `in/img.png` under `envLow` at threshold `3/5`. -/
def rLow : ImageResult :=
  { filename := "img.png", s3_key := "in/img.png", top_prediction := "unknown",
    top_confidence := mkRat 2 5,
    all_predictions := [⟨"cat", mkRat 2 5⟩, ⟨"dog", mkRat 3 10⟩],
    reason := some (reasonString "cat" (mkRat 2 5) (mkRat 3 5)) }

/-- CLIP score oracle with a tie between `cat` and `dog`. -/
def scores8 : String → ℚ :=
  fun l => if l = "cat" then mkRat 1 2 else if l = "dog" then mkRat 1 2 else mkRat 1 4

/-- The expected top-2 CLIP output under `scores8`: the tie is broken by
original label order, `cat` before `dog`. -/
def out8 : List Prediction := [⟨"cat", mkRat 1 2⟩, ⟨"dog", mkRat 1 2⟩]

/-- Worker environment with healthy transports over `envA`. -/
def envW : WorkerEnv := { imgEnv := envA, statusSendOk := true, deleteOk := true }

/-- A message whose body is not valid JSON. -/
def msgBad : RawMessage := { receiptHandle := "rh-1", body := .notJson }

/-- A JSON-object body with `job_id` present but an invalid `job_type`. -/
def dInvalid : JsonDict :=
  { job_id := some "job-7", job_type := some "bogus", s3_bucket := some "b",
    s3_keys := some ["a.jpg"], custom_labels := none, top_k := none,
    confidence_threshold := none, retry_count := none }

/-- A batch of six received messages (more than `MAX_WORKERS_default`). -/
def sixMessages : List RawMessage :=
  [⟨"r1", .notJson⟩, ⟨"r2", .notJson⟩, ⟨"r3", .notJson⟩,
   ⟨"r4", .notJson⟩, ⟨"r5", .notJson⟩, ⟨"r6", .notJson⟩]

/-! Lemmas about the per-image loop. -/

theorem processKeys_ok {env : String → Except String (List Prediction)} {thr : ℚ} :
    ∀ {keys tr : List String} {rs : List ImageResult},
    processKeys env thr keys = (tr, Except.ok rs) → tr = keys ∧ rs.length = keys.length := by
  intro keys
  induction keys with
  | nil =>
    intro tr rs h
    simp only [processKeys, Prod.mk.injEq, Except.ok.injEq] at h
    obtain ⟨h1, h2⟩ := h
    simp [← h1, ← h2]
  | cons k ks ih =>
    intro tr rs h
    simp only [processKeys] at h
    cases hc : classifySingleImage env k thr with
    | error e =>
      rw [hc] at h
      simp at h
    | ok r =>
      rw [hc] at h
      cases hp : processKeys env thr ks with
      | mk tr' res =>
        rw [hp] at h
        cases res with
        | error e => simp [Except.map] at h
        | ok rs' =>
          simp only [Except.map, Prod.mk.injEq, Except.ok.injEq] at h
          obtain ⟨h1, h2⟩ := h
          obtain ⟨ih1, ih2⟩ := ih hp
          subst h1 h2 ih1
          simp [ih2]

theorem processKeys_err {env : String → Except String (List Prediction)} {thr : ℚ}
    {k e : String} :
    ∀ (pre post : List String),
    (∀ k' ∈ pre, ∃ r, classifySingleImage env k' thr = Except.ok r) →
    classifySingleImage env k thr = Except.error e →
    processKeys env thr (pre ++ k :: post) = (pre ++ [k], Except.error e) := by
  intro pre
  induction pre with
  | nil =>
    intro post _ hk
    simp [processKeys, hk]
  | cons a pre ih =>
    intro post hpre hk
    obtain ⟨r, hr⟩ := hpre a (List.mem_cons_self a pre)
    have hrec := ih post (fun k' hk' => hpre k' (List.mem_cons_of_mem a hk')) hk
    simp [processKeys, hr, hrec, Except.map]

/-! Lemmas about first-seen deduplication and the grouping dict. -/

theorem mem_firstSeen {α : Type} [DecidableEq α] {x : α} :
    ∀ {ms : List α}, x ∈ firstSeen ms ↔ x ∈ ms := by
  intro ms
  induction ms with
  | nil => simp [firstSeen]
  | cons m t ih =>
    by_cases hx : x = m
    · subst hx
      simp [firstSeen]
    · simp [firstSeen, hx, ih]

theorem nodup_firstSeen {α : Type} [DecidableEq α] :
    ∀ (ms : List α), (firstSeen ms).Nodup := by
  intro ms
  induction ms with
  | nil => simp [firstSeen]
  | cons m t ih =>
    rw [firstSeen]
    refine List.Nodup.cons ?_ (ih.filter _)
    intro hm
    have := List.of_mem_filter hm
    simp at this

theorem firstSeen_concat {α : Type} [DecidableEq α] (m : α) :
    ∀ (ms : List α),
    firstSeen (ms ++ [m]) = if m ∈ ms then firstSeen ms else firstSeen ms ++ [m] := by
  intro ms
  induction ms with
  | nil => simp [firstSeen]
  | cons a t ih =>
    rw [List.cons_append, firstSeen, ih, firstSeen]
    by_cases hm : m ∈ t
    · rw [if_pos hm, if_pos (List.mem_cons_of_mem a hm)]
    · rw [if_neg hm]
      by_cases hma : m = a
      · subst hma
        rw [if_pos (List.mem_cons_self m t), List.filter_append]
        simp
      · rw [if_neg (by simp [hma, hm]), List.filter_append]
        simp [List.filter_singleton, hma]

theorem addToGroup_groupsOf (rs : List ImageResult) (r : ImageResult) :
    addToGroup (groupsOf rs) r.top_prediction r.filename = groupsOf (rs ++ [r]) := by
  by_cases hmem : r.top_prediction ∈ rs.map (fun x => x.top_prediction)
  · have hany : (groupsOf rs).any (fun p => decide (p.1 = r.top_prediction)) = true := by
      rw [List.any_eq_true]
      refine ⟨(r.top_prediction,
        ((rs.filter (fun x => decide (x.top_prediction = r.top_prediction))).map
          (fun x => x.filename))), ?_, by simp⟩
      rw [groupsOf]
      exact List.mem_map_of_mem _ (mem_firstSeen.mpr hmem)
    rw [addToGroup, if_pos hany, groupsOf, groupsOf]
    simp only [List.map_append, List.map_cons, List.map_nil]
    rw [firstSeen_concat, if_pos hmem, List.map_map]
    refine List.map_congr_left ?_
    intro l hl
    by_cases hle : l = r.top_prediction
    · subst hle
      simp [List.filter_append]
    · have hne : ¬ (r.top_prediction = l) := fun h => hle h.symm
      simp [List.filter_append, hle, hne]
  · have hany : (groupsOf rs).any (fun p => decide (p.1 = r.top_prediction)) = false := by
      rw [List.any_eq_false]
      intro p hp
      rw [groupsOf] at hp
      obtain ⟨l, hl, rfl⟩ := List.mem_map.mp hp
      have : l ∈ rs.map (fun x => x.top_prediction) := mem_firstSeen.mp hl
      simp only [decide_eq_true_eq]
      intro hc
      exact hmem (hc ▸ this)
    rw [addToGroup, if_neg (by simp [hany])]
    rw [groupsOf, groupsOf]
    simp only [List.map_append, List.map_cons, List.map_nil]
    rw [firstSeen_concat, if_neg hmem, List.map_append]
    congr 1
    · refine List.map_congr_left ?_
      intro l hl
      have hlm : l ∈ rs.map (fun x => x.top_prediction) := mem_firstSeen.mp hl
      have hne : ¬ (r.top_prediction = l) := fun h => hmem (h ▸ hlm)
      simp [List.filter_append, hne]
    · have hfilter : rs.filter (fun x => decide (x.top_prediction = r.top_prediction)) = [] := by
        rw [List.filter_eq_nil_iff]
        intro x hx
        simp only [decide_eq_true_eq]
        intro hc
        exact hmem (hc ▸ List.mem_map_of_mem _ hx)
      simp [hfilter, List.filter_append]

theorem buildGroups_eq_groupsOf : ∀ (rs : List ImageResult), buildGroups rs = groupsOf rs := by
  intro rs
  induction rs using List.reverseRecOn with
  | nil => rfl
  | append_singleton rs r ih =>
    rw [buildGroups, List.foldl_append]
    rw [show List.foldl (fun g x => addToGroup g x.top_prediction x.filename) [] rs
        = buildGroups rs from rfl]
    rw [ih]
    simp only [List.foldl_cons, List.foldl_nil]
    exact addToGroup_groupsOf rs r

theorem find?_pair_map (L : List String) (F : String → List String) (lab : String) :
    (L.map (fun l => (l, F l))).find? (fun p => decide (p.1 = lab))
      = (L.find? (fun l => decide (l = lab))).map (fun l => (l, F l)) := by
  induction L with
  | nil => rfl
  | cons a L ih =>
    by_cases h : a = lab
    · simp [List.find?, h]
    · simp [List.find?, h, ih]

theorem find?_eq_some_of_mem (lab : String) :
    ∀ (L : List String), lab ∈ L → L.find? (fun l => decide (l = lab)) = some lab := by
  intro L
  induction L with
  | nil => simp
  | cons a L ih =>
    intro h
    by_cases ha : a = lab
    · subst ha
      simp [List.find?]
    · have : lab ∈ L := by
        rcases List.mem_cons.mp h with h1 | h1
        · exact absurd h1.symm ha
        · exact h1
      simp [List.find?, ha, ih this]

theorem pyDictGet_groupsOf (rs : List ImageResult) (lab : String) :
    pyDictGet (groupsOf rs) lab []
      = (rs.filter (fun r => decide (r.top_prediction = lab))).map (fun r => r.filename) := by
  rw [pyDictGet, groupsOf, find?_pair_map]
  by_cases hmem : lab ∈ rs.map (fun r => r.top_prediction)
  · rw [find?_eq_some_of_mem lab _ (mem_firstSeen.mpr hmem)]
    simp
  · rw [List.find?_eq_none.mpr ?_]
    · have hfil : rs.filter (fun r => decide (r.top_prediction = lab)) = [] := by
        rw [List.filter_eq_nil_iff]
        intro x hx
        simp only [decide_eq_true_eq]
        intro hc
        exact hmem (hc ▸ List.mem_map_of_mem _ hx)
      simp [hfil]
    · intro x hx
      simp only [decide_eq_true_eq]
      intro hc
      exact hmem (mem_firstSeen.mp (hc ▸ hx))

theorem nodup_perm_cons_filter {α : Type} [DecidableEq α] {a : α} :
    ∀ {L : List α}, L.Nodup → a ∈ L → List.Perm L (a :: L.filter (fun b => b ≠ a)) := by
  intro L
  induction L with
  | nil => simp
  | cons c L ih =>
    intro hnd hmem
    rcases List.mem_cons.mp hmem with hac | haL
    · subst hac
      have hnotin : a ∉ L := (List.nodup_cons.mp hnd).1
      have hfil : L.filter (fun b => decide (b ≠ a)) = L := by
        rw [List.filter_eq_self]
        intro b hb
        simp only [ne_eq, decide_not, Bool.not_eq_eq_eq_not, Bool.not_true,
          decide_eq_false_iff_not]
        intro hc
        exact hnotin (hc ▸ hb)
      rw [List.filter_cons_of_neg (by simp)]
      rw [hfil]
    · have hca : ¬ (c = a) := by
        intro hc
        exact (List.nodup_cons.mp hnd).1 (hc ▸ haL)
      have hperm := ih (List.nodup_cons.mp hnd).2 haL
      rw [List.filter_cons_of_pos (by simpa using hca)]
      exact (hperm.cons c).trans (List.Perm.swap a c _)

theorem sum_firstSeen_filter_length {α β : Type} [DecidableEq β] (f : α → β) :
    ∀ (xs : List α),
    ((firstSeen (xs.map f)).map
      (fun b => (xs.filter (fun x => decide (f x = b))).length)).sum = xs.length := by
  intro xs
  induction xs with
  | nil => simp [firstSeen]
  | cons x t ih =>
    rw [List.map_cons, firstSeen, List.map_cons, List.sum_cons]
    have hhead : ((x :: t).filter (fun y => decide (f y = f x))).length
        = (t.filter (fun y => decide (f y = f x))).length + 1 := by
      rw [List.filter_cons_of_pos (by simp)]
      simp
    have htail : ((firstSeen (t.map f)).filter (fun b => b ≠ f x)).map
          (fun b => ((x :: t).filter (fun y => decide (f y = b))).length)
        = ((firstSeen (t.map f)).filter (fun b => b ≠ f x)).map
          (fun b => (t.filter (fun y => decide (f y = b))).length) := by
      refine List.map_congr_left ?_
      intro b hb
      have hbx : ¬ (f x = b) := by
        have := List.of_mem_filter hb
        simp only [decide_eq_true_eq] at this
        exact fun h => this h.symm
      rw [List.filter_cons_of_neg (by simpa using hbx)]
    rw [hhead, htail, List.length_cons]
    by_cases hmem : f x ∈ t.map f
    · have hfs : f x ∈ firstSeen (t.map f) := mem_firstSeen.mpr hmem
      have hperm : List.Perm (firstSeen (t.map f))
          (f x :: (firstSeen (t.map f)).filter (fun b => b ≠ f x)) :=
        nodup_perm_cons_filter (nodup_firstSeen (t.map f)) hfs
      have hsum := (hperm.map
        (fun b => (t.filter (fun y => decide (f y = b))).length)).sum_eq
      rw [List.map_cons, List.sum_cons] at hsum
      rw [ih] at hsum
      omega
    · have hnil : t.filter (fun y => decide (f y = f x)) = [] := by
        rw [List.filter_eq_nil_iff]
        intro y hy
        simp only [decide_eq_true_eq]
        intro hc
        exact hmem (hc ▸ List.mem_map_of_mem _ hy)
      have hself : (firstSeen (t.map f)).filter (fun b => b ≠ f x) = firstSeen (t.map f) := by
        rw [List.filter_eq_self]
        intro b hb
        simp only [ne_eq, decide_not, Bool.not_eq_eq_eq_not, Bool.not_true, decide_eq_false_iff_not]
        intro hc
        exact hmem (hc ▸ mem_firstSeen.mp hb)
      rw [hnil, hself, ih]
      simp only [List.length_nil]
      omega

theorem classify_batch_ok {env : String → Except String (List Prediction)}
    {req : ClassificationRequest} {tr : List String} {resp : ClassificationResponse}
    (h : classify_batch env req = (tr, Except.ok resp)) :
    processKeys env req.confidence_threshold req.s3_keys = (tr, Except.ok resp.detailed_results) ∧
    resp.grouped_by_label = buildGroups resp.detailed_results ∧
    resp.summary.total = resp.detailed_results.length ∧
    resp.summary.unknown = (pyDictGet (buildGroups resp.detailed_results) "unknown" []).length ∧
    resp.summary.classified = resp.detailed_results.length - resp.summary.unknown := by
  rw [classify_batch] at h
  split at h
  · simp at h
  · split at h
    · simp at h
    · rename_i tr' rs heq
      rw [Prod.mk.injEq] at h
      obtain ⟨rfl, h2⟩ := h
      injection h2 with h2
      subst h2
      exact ⟨heq, rfl, rfl, rfl, rfl⟩

/-! The claims. -/

/-- C1: whenever `classify_batch` returns a response, the number of
`ImageResult`s in `detailed_results` equals the number of `s3_keys` of the
job and equals `summary.total`, and
`summary.classified + summary.unknown = summary.total`. -/
theorem claim_C1 {env : String → Except String (List Prediction)}
    {req : ClassificationRequest} {tr : List String} {resp : ClassificationResponse}
    (h : classify_batch env req = (tr, Except.ok resp)) :
    resp.detailed_results.length = req.s3_keys.length ∧
    resp.summary.total = req.s3_keys.length ∧
    resp.summary.classified + resp.summary.unknown = resp.summary.total := by
  obtain ⟨hpk, _, htot, hunk, hcls⟩ := classify_batch_ok h
  obtain ⟨_, hlen⟩ := processKeys_ok hpk
  have hle : resp.summary.unknown ≤ resp.detailed_results.length := by
    rw [hunk, buildGroups_eq_groupsOf, pyDictGet_groupsOf, List.length_map]
    exact List.length_filter_le _ _
  refine ⟨hlen, htot.trans hlen, ?_⟩
  rw [hcls, htot]
  exact Nat.sub_add_cancel hle

theorem claim_C1_witness :
    classify_batch envA reqA = (["a/x.jpg", "b/x.jpg"], Except.ok respA) ∧
    (respA.detailed_results.length = reqA.s3_keys.length ∧
     respA.summary.total = reqA.s3_keys.length ∧
     respA.summary.classified + respA.summary.unknown = respA.summary.total) := by
  have H : classify_batch envA reqA = (["a/x.jpg", "b/x.jpg"], Except.ok respA) := by decide
  exact ⟨H, claim_C1 H⟩

/-- C5: if the per-image step raises for some key (image resolution or
classifier failure), every earlier key having succeeded, then
`classify_batch` propagates that error: its trace stops at the failing key
(no later image is processed) and no response is produced. -/
theorem claim_C5 (env : String → Except String (List Prediction))
    (req : ClassificationRequest) (pre post : List String) (k e : String)
    (hkeys : req.s3_keys = pre ++ k :: post)
    (hvalid : ¬ (req.job_type = JobType.custom_classification ∧
      req.custom_labels.getD [] = []))
    (hpre : ∀ k' ∈ pre, ∃ r, classifySingleImage env k' req.confidence_threshold = Except.ok r)
    (hk : classifySingleImage env k req.confidence_threshold = Except.error e) :
    classify_batch env req = (pre ++ [k], Except.error e) := by
  have hp := processKeys_err pre post hpre hk
  rw [classify_batch, if_neg hvalid, hkeys, hp]

theorem claim_C5_witness :
    classify_batch envErr reqErr = (["ok.jpg", "bad.jpg"], Except.error "boom") := by
  refine claim_C5 envErr reqErr ["ok.jpg"] ["later.jpg"] "bad.jpg" "boom" rfl
    (by decide) ?_ (by decide)
  intro k' hk'
  have : k' = "ok.jpg" := by simpa using hk'
  subst this
  exact ⟨{ filename := "ok.jpg", s3_key := "ok.jpg", top_prediction := "cat",
           top_confidence := mkRat 9 10, all_predictions := [⟨"cat", mkRat 9 10⟩],
           reason := none }, by decide⟩

/-- C6: in every response, `grouped_by_label` lists labels in first-seen
order without duplicates; each label's group is exactly the filenames of
the results resolved to that label, in processing order; and the group
sizes sum to `summary.total` (so each result's filename is placed in
exactly one group). -/
theorem claim_C6 {env : String → Except String (List Prediction)}
    {req : ClassificationRequest} {tr : List String} {resp : ClassificationResponse}
    (h : classify_batch env req = (tr, Except.ok resp)) :
    resp.grouped_by_label.map Prod.fst
      = firstSeen (resp.detailed_results.map (fun r => r.top_prediction)) ∧
    (resp.grouped_by_label.map Prod.fst).Nodup ∧
    (∀ p ∈ resp.grouped_by_label,
      p.2 = (resp.detailed_results.filter
        (fun r => decide (r.top_prediction = p.1))).map (fun r => r.filename)) ∧
    (resp.grouped_by_label.map (fun p => p.2.length)).sum = resp.summary.total := by
  obtain ⟨_, hgroup, htot, _, _⟩ := classify_batch_ok h
  rw [hgroup, buildGroups_eq_groupsOf]
  have hfst : (groupsOf resp.detailed_results).map Prod.fst
      = firstSeen (resp.detailed_results.map (fun r => r.top_prediction)) := by
    rw [groupsOf, List.map_map]
    simp only [Function.comp_def]
    simp
  refine ⟨hfst, hfst ▸ nodup_firstSeen _, ?_, ?_⟩
  · intro p hp
    rw [groupsOf] at hp
    obtain ⟨l, _, rfl⟩ := List.mem_map.mp hp
    rfl
  · rw [htot, groupsOf, List.map_map]
    simp only [Function.comp_def, List.length_map]
    exact sum_firstSeen_filter_length (fun r => r.top_prediction) resp.detailed_results

theorem claim_C6_witness :
    classify_batch envA reqA = (["a/x.jpg", "b/x.jpg"], Except.ok respA) ∧
    (respA.grouped_by_label.map Prod.fst
        = firstSeen (respA.detailed_results.map (fun r => r.top_prediction)) ∧
      (respA.grouped_by_label.map Prod.fst).Nodup ∧
      (∀ p ∈ respA.grouped_by_label,
        p.2 = (respA.detailed_results.filter
          (fun r => decide (r.top_prediction = p.1))).map (fun r => r.filename)) ∧
      (respA.grouped_by_label.map (fun p => p.2.length)).sum = respA.summary.total) := by
  have H : classify_batch envA reqA = (["a/x.jpg", "b/x.jpg"], Except.ok respA) := by decide
  exact ⟨H, claim_C6 H⟩

/-- C7: a `custom_classification` job whose custom label list is missing
or empty makes `classify_batch` fail with the validation error, with an
empty call trace: no image is resolved and no classifier call occurs. -/
theorem claim_C7 (env : String → Except String (List Prediction))
    (req : ClassificationRequest)
    (h1 : req.job_type = JobType.custom_classification)
    (h2 : req.custom_labels.getD [] = []) :
    classify_batch env req
      = ([], Except.error "custom_labels is required for custom_classification") := by
  rw [classify_batch, if_pos ⟨h1, h2⟩]

theorem claim_C7_witness :
    reqC7.job_type = JobType.custom_classification ∧
    reqC7.custom_labels.getD [] = [] ∧
    classify_batch envA reqC7
      = ([], Except.error "custom_labels is required for custom_classification") :=
  ⟨rfl, rfl, claim_C7 envA reqC7 rfl rfl⟩

theorem reasonString_ne_empty (l : String) (s t : ℚ) : reasonString l s t ≠ "" := by
  intro hc
  have hlen := congrArg String.length hc
  rw [reasonString] at hlen
  simp only [String.length_append] at hlen
  have hpos : (0:Nat) < "confidence below threshold (".length := by decide
  have hzero : ("":String).length = 0 := rfl
  omega

/-- C2: for every `ImageResult` the per-image step produces: when the top
score is strictly below the threshold, the resolved label is the sentinel
`"unknown"` and the reason is a non-empty string containing the original
label, its two-decimal score and the threshold; otherwise the reason is
`None` and the resolved label is the classifier's top label. In both cases
the ranked prediction list is passed through unmodified and
`top_confidence` is the original top score. -/
theorem claim_C2 (env : String → Except String (List Prediction)) (s3_key : String)
    (thr : ℚ) (r : ImageResult) (p0 : Prediction) (rest : List Prediction)
    (h : classifySingleImage env s3_key thr = Except.ok r)
    (henv : env s3_key = Except.ok (p0 :: rest)) :
    r.all_predictions = p0 :: rest ∧
    r.top_confidence = p0.score ∧
    (p0.score < thr →
      r.top_prediction = "unknown" ∧
      r.reason = some (reasonString p0.label p0.score thr) ∧
      reasonString p0.label p0.score thr ≠ "" ∧
      List.IsInfix p0.label.data (reasonString p0.label p0.score thr).data ∧
      List.IsInfix (fmt2 p0.score).data (reasonString p0.label p0.score thr).data ∧
      List.IsInfix (pyFloatStr thr).data (reasonString p0.label p0.score thr).data) ∧
    (¬ p0.score < thr → r.reason = none ∧ r.top_prediction = p0.label) := by
  rw [classifySingleImage, henv] at h
  dsimp only at h
  by_cases hlt : p0.score < thr
  · rw [if_pos hlt] at h
    injection h with h
    subst h
    refine ⟨rfl, rfl, fun _ => ⟨rfl, rfl, reasonString_ne_empty _ _ _, ?_, ?_, ?_⟩,
      fun hc => absurd hlt hc⟩
    · refine ⟨("confidence below threshold (" ++ fmt2 p0.score ++ " < " ++
        pyFloatStr thr ++ "). Original prediction: ").data, [], ?_⟩
      simp [reasonString, String.data_append]
    · refine ⟨"confidence below threshold (".data,
        (" < " ++ pyFloatStr thr ++ "). Original prediction: " ++ p0.label).data, ?_⟩
      simp [reasonString, String.data_append]
    · refine ⟨("confidence below threshold (" ++ fmt2 p0.score ++ " < ").data,
        ("). Original prediction: " ++ p0.label).data, ?_⟩
      simp [reasonString, String.data_append]
  · rw [if_neg hlt] at h
    injection h with h
    subst h
    exact ⟨rfl, rfl, fun hc => absurd hc hlt, fun _ => ⟨rfl, rfl⟩⟩

theorem claim_C2_witness :
    classifySingleImage envLow "in/img.png" (mkRat 3 5) = Except.ok rLow ∧
    envLow "in/img.png" = Except.ok [⟨"cat", mkRat 2 5⟩, ⟨"dog", mkRat 3 10⟩] ∧
    (rLow.all_predictions = ⟨"cat", mkRat 2 5⟩ :: [⟨"dog", mkRat 3 10⟩] ∧
     rLow.top_confidence = Prediction.score ⟨"cat", mkRat 2 5⟩ ∧
     (Prediction.score ⟨"cat", mkRat 2 5⟩ < mkRat 3 5 →
       rLow.top_prediction = "unknown" ∧
       rLow.reason = some (reasonString "cat" (Prediction.score ⟨"cat", mkRat 2 5⟩) (mkRat 3 5)) ∧
       reasonString "cat" (Prediction.score ⟨"cat", mkRat 2 5⟩) (mkRat 3 5) ≠ "" ∧
       List.IsInfix (String.data "cat")
         (reasonString "cat" (Prediction.score ⟨"cat", mkRat 2 5⟩) (mkRat 3 5)).data ∧
       List.IsInfix (fmt2 (Prediction.score ⟨"cat", mkRat 2 5⟩)).data
         (reasonString "cat" (Prediction.score ⟨"cat", mkRat 2 5⟩) (mkRat 3 5)).data ∧
       List.IsInfix (pyFloatStr (mkRat 3 5)).data
         (reasonString "cat" (Prediction.score ⟨"cat", mkRat 2 5⟩) (mkRat 3 5)).data) ∧
     (¬ Prediction.score ⟨"cat", mkRat 2 5⟩ < mkRat 3 5 →
       rLow.reason = none ∧ rLow.top_prediction = "cat")) := by
  have H1 : classifySingleImage envLow "in/img.png" (mkRat 3 5) = Except.ok rLow := by decide
  have H2 : envLow "in/img.png" = Except.ok [⟨"cat", mkRat 2 5⟩, ⟨"dog", mkRat 3 10⟩] := rfl
  exact ⟨H1, H2, claim_C2 envLow "in/img.png" (mkRat 3 5) rLow
    ⟨"cat", mkRat 2 5⟩ [⟨"dog", mkRat 3 10⟩] H1 H2⟩

/-- C3 counterexample: for the concrete message `msgBad`, whose body is
unparsable JSON, `process_message` publishes zero `failed` statuses (not
exactly one, as claimed): its whole effect list is the single delete. The
failure-status block re-parses the body, which raises again and is
swallowed, so the publish is never reached. -/
theorem claim_C3_counterexample :
    process_message envW msgBad = [Effect.deleteMsg "rh-1" true] ∧
    ¬ ((process_message envW msgBad).countP Effect.isFailedPublish = 1) := by
  decide

/-- C3 (amended): a message whose body is unparsable JSON yields no status
publish at all — the failure-status construction re-parses the body, fails
again, and is swallowed — while the message is still deleted and no
classifier or image-source call is made; a message whose body is a JSON
object that fails Job construction/validation and carries a `job_id`
yields exactly one `failed` status publish followed by the delete, again
with no classifier or image-source calls. -/
theorem claim_C3_amended (env : WorkerEnv) (rh : String) (d : JsonDict) (jid e : String)
    (hreq : buildRequest d = Except.error e) (hjid : d.job_id = some jid) :
    process_message env { receiptHandle := rh, body := ParsedBody.notJson }
      = [Effect.deleteMsg rh env.deleteOk] ∧
    process_message env { receiptHandle := rh, body := ParsedBody.dict d }
      = [Effect.statusPublish jid "failed" env.statusSendOk,
         Effect.deleteMsg rh env.deleteOk] := by
  constructor
  · rfl
  · simp [process_message, hreq, hjid]

theorem claim_C3_witness :
    buildRequest dInvalid = Except.error "ValueError: invalid job_type" ∧
    dInvalid.job_id = some "job-7" ∧
    (process_message envW { receiptHandle := "rh-2", body := ParsedBody.notJson }
        = [Effect.deleteMsg "rh-2" true] ∧
     process_message envW { receiptHandle := "rh-2", body := ParsedBody.dict dInvalid }
        = [Effect.statusPublish "job-7" "failed" true, Effect.deleteMsg "rh-2" true]) := by
  have H1 : buildRequest dInvalid = Except.error "ValueError: invalid job_type" := by decide
  have H2 : dInvalid.job_id = some "job-7" := rfl
  exact ⟨H1, H2,
    claim_C3_amended envW "rh-2" dInvalid "job-7" "ValueError: invalid job_type" H1 H2⟩

theorem filter_isDelete_map_classifierCall (tr : List String) :
    (tr.map Effect.classifierCall).filter Effect.isDelete = [] := by
  induction tr with
  | nil => rfl
  | cons k tr ih => simp [Effect.isDelete, ih]

theorem getLast?_concat_pair (A : List Effect) (p dl : Effect) :
    (A ++ [p, dl]).getLast? = some dl := by
  rw [show (A ++ [p, dl]) = (A ++ [p]) ++ [dl] by simp]
  exact List.getLast?_concat _

/-- C4: every `process_message` run ends with the message acknowledged:
whatever the environment (including a failing status-queue transport) and
whatever the outcome — success, parse failure, or processing exception —
the effect list contains exactly one `delete_message` call, and it is the
final action. Quantifying over every `WorkerEnv` covers
`statusSendOk = false`: `send_status_update` swallows its own errors, so a
failed publish never prevents the acknowledgment. -/
theorem claim_C4 (env : WorkerEnv) (msg : RawMessage) :
    (process_message env msg).filter Effect.isDelete
      = [Effect.deleteMsg msg.receiptHandle env.deleteOk] ∧
    (process_message env msg).getLast?
      = some (Effect.deleteMsg msg.receiptHandle env.deleteOk) := by
  obtain ⟨rh, body⟩ := msg
  cases body with
  | notJson => exact ⟨rfl, rfl⟩
  | nonDict => exact ⟨rfl, rfl⟩
  | dict d =>
    cases hb : buildRequest d with
    | error e =>
      cases hj : d.job_id with
      | none =>
        simp only [process_message, hb, hj]
        exact ⟨rfl, rfl⟩
      | some jid =>
        simp only [process_message, hb, hj]
        exact ⟨rfl, rfl⟩
    | ok request =>
      cases hc : classify_batch env.imgEnv request with
      | mk tr res =>
        cases res with
        | ok resp =>
          simp only [process_message, hb, hc]
          refine ⟨?_, getLast?_concat_pair _ _ _⟩
          rw [List.filter_append, filter_isDelete_map_classifierCall]
          rfl
        | error e =>
          simp only [process_message, hb, hc]
          refine ⟨?_, getLast?_concat_pair _ _ _⟩
          rw [List.filter_append, filter_isDelete_map_classifierCall]
          rfl

theorem filter_score_orderedInsert (s : ℚ) (a : Prediction) :
    ∀ (l : List Prediction),
    (l.orderedInsert scoreDescRel a).filter (fun x => decide (x.score = s))
      = if a.score = s then a :: l.filter (fun x => decide (x.score = s))
        else l.filter (fun x => decide (x.score = s)) := by
  intro l
  induction l with
  | nil =>
    rw [List.orderedInsert]
    by_cases ha : a.score = s
    · rw [if_pos ha]
      simp [ha]
    · rw [if_neg ha]
      simp [ha]
  | cons b l ih =>
    rw [List.orderedInsert]
    by_cases hr : scoreDescRel a b
    · rw [if_pos hr]
      by_cases ha : a.score = s
      · rw [if_pos ha, List.filter_cons_of_pos (by simpa using ha)]
      · rw [if_neg ha, List.filter_cons_of_neg (by simpa using ha)]
    · rw [if_neg hr]
      by_cases ha : a.score = s
      · have hb : ¬ (b.score = s) := by
          intro hbs
          exact hr (le_of_eq (hbs.trans ha.symm))
        rw [if_pos ha, List.filter_cons_of_neg (by simpa using hb), ih, if_pos ha,
            List.filter_cons_of_neg (by simpa using hb)]
      · rw [if_neg ha]
        by_cases hbs : b.score = s
        · rw [List.filter_cons_of_pos (by simpa using hbs), ih, if_neg ha,
              List.filter_cons_of_pos (by simpa using hbs)]
        · rw [List.filter_cons_of_neg (by simpa using hbs), ih, if_neg ha,
              List.filter_cons_of_neg (by simpa using hbs)]

theorem filter_score_insertionSort (s : ℚ) :
    ∀ (l : List Prediction),
    (l.insertionSort scoreDescRel).filter (fun x => decide (x.score = s))
      = l.filter (fun x => decide (x.score = s)) := by
  intro l
  induction l with
  | nil => rfl
  | cons a l ih =>
    rw [List.insertionSort, filter_score_orderedInsert]
    by_cases ha : a.score = s
    · rw [if_pos ha, ih, List.filter_cons_of_pos (by simpa using ha)]
    · rw [if_neg ha, ih, List.filter_cons_of_neg (by simpa using ha)]

/-- C8: for a non-empty custom label list, the open-vocabulary predict
returns the scored labels sorted in descending score order, truncated to
exactly `min top_k (number of labels)` entries; and for every score value,
the output's entries with that score are exactly the first such entries of
the original label order (ties are broken by original position, first-seen
wins — the third conjunct says the filtered output is a prefix of the
filtered original list, the remainder being the truncated tail). -/
theorem claim_C8 (scores : String → ℚ) (custom_labels : List String) (top_k : Nat)
    (s : ℚ) (out : List Prediction)
    (hne : custom_labels ≠ [])
    (h : clipPredict scores custom_labels top_k = Except.ok out) :
    out.length = min top_k custom_labels.length ∧
    out.Sorted scoreDescRel ∧
    out.filter (fun p => decide (p.score = s)) ++
        ((pySortedByScoreDesc (custom_labels.map (fun label =>
          ⟨label, scores label⟩))).drop top_k).filter (fun p => decide (p.score = s))
      = (custom_labels.map (fun label => ⟨label, scores label⟩)).filter
          (fun p => decide (p.score = s)) := by
  rw [clipPredict, if_neg hne] at h
  injection h with h
  subst h
  simp only [pySortedByScoreDesc]
  refine ⟨?_, ?_, ?_⟩
  · rw [List.length_take, (List.perm_insertionSort scoreDescRel _).length_eq, List.length_map]
  · exact List.Pairwise.sublist (List.take_sublist _ _)
      (List.sorted_insertionSort scoreDescRel _)
  · rw [← List.filter_append, List.take_append_drop, filter_score_insertionSort]

theorem claim_C8_witness :
    (["cat", "dog", "bird"] ≠ ([] : List String)) ∧
    clipPredict scores8 ["cat", "dog", "bird"] 2 = Except.ok out8 ∧
    (out8.length = min 2 (["cat", "dog", "bird"] : List String).length ∧
     out8.Sorted scoreDescRel ∧
     out8.filter (fun p => decide (p.score = mkRat 1 2)) ++
        ((pySortedByScoreDesc ((["cat", "dog", "bird"] : List String).map (fun label =>
          ⟨label, scores8 label⟩))).drop 2).filter (fun p => decide (p.score = mkRat 1 2))
      = ((["cat", "dog", "bird"] : List String).map (fun label =>
          ⟨label, scores8 label⟩)).filter (fun p => decide (p.score = mkRat 1 2))) := by
  have H1 : (["cat", "dog", "bird"] ≠ ([] : List String)) := by decide
  have H2 : clipPredict scores8 ["cat", "dog", "bird"] 2 = Except.ok out8 := by decide
  exact ⟨H1, H2, claim_C8 scores8 ["cat", "dog", "bird"] 2 (mkRat 1 2) out8 H1 H2⟩

/-- C9: evaluation of the worker-loop model at the failing input. A cycle
receiving six messages dispatches six concurrent `process_message` tasks —
`worker_loop` gathers one task per received message, bounded only by the
receive batch size (`BATCH_SIZE`, default 10), and never consults the
`ThreadPoolExecutor(max_workers=MAX_WORKERS)` it constructed — exceeding
the configured `MAX_WORKERS = 5` that the claim says bounds in-flight
concurrency. -/
theorem claim_C9 :
    cycleInFlight sixMessages = 6 ∧
    MAX_WORKERS_default = 5 ∧
    BATCH_SIZE_default = 10 ∧
    ¬ (cycleInFlight sixMessages ≤ MAX_WORKERS_default) := by
  decide

/-- C10: every produced `ImageResult` has as `filename` the substring of
its s3 key after the last `/`; consequently the two distinct keys of
`reqA`, which share the final segment `x.jpg`, produce two results with
the identical filename, and that filename appears in two distinct groups
of `grouped_by_label`. -/
theorem claim_C10 :
    (∀ (env : String → Except String (List Prediction)) (s3_key : String) (thr : ℚ)
        (r : ImageResult),
      classifySingleImage env s3_key thr = Except.ok r → r.filename = pyLastSegment s3_key) ∧
    pyLastSegment "a/x.jpg" = "x.jpg" ∧
    pyLastSegment "b/x.jpg" = "x.jpg" ∧
    ("a/x.jpg" : String) ≠ "b/x.jpg" ∧
    (classify_batch envA reqA).2 = Except.ok respA ∧
    respA.grouped_by_label = [("cat", ["x.jpg"]), ("unknown", ["x.jpg"])] ∧
    respA.grouped_by_label.countP (fun p => decide ("x.jpg" ∈ p.2)) = 2 := by
  refine ⟨?_, by decide, by decide, by decide, by decide, by decide, by decide⟩
  intro env s3_key thr r h
  cases he : env s3_key with
  | error e =>
    rw [classifySingleImage, he] at h
    exact Except.noConfusion h
  | ok ps =>
    cases ps with
    | nil =>
      rw [classifySingleImage, he] at h
      exact Except.noConfusion h
    | cons p0 rest =>
      rw [classifySingleImage, he] at h
      dsimp only at h
      by_cases hlt : p0.score < thr
      · rw [if_pos hlt] at h
        injection h with h
        subst h
        rfl
      · rw [if_neg hlt] at h
        injection h with h
        subst h
        rfl

theorem claim_C10_witness :
    classifySingleImage envA "a/x.jpg" (mkRat 1 2) = Except.ok rA ∧
    rA.filename = pyLastSegment "a/x.jpg" := by
  have H : classifySingleImage envA "a/x.jpg" (mkRat 1 2) = Except.ok rA := by decide
  exact ⟨H, claim_C10.1 envA "a/x.jpg" (mkRat 1 2) rA H⟩

end DCS
